import Mathlib

/-!
Verification of the rattler-build script-runner core against its source.

The definitions below are shallow embeddings of the Rust sources in
`src/script/runner/{mod,host,sandbox,docker}.rs` and
`src/recipe/parser/skip.rs`.  Paths and byte strings are modelled as
`String` (with `List Char` workhorses where recursion is needed); the
filesystem (`Path::canonicalize`) and the OS (spawn, wait, stream reads,
log writes) are modelled as explicit environment parameters; fallible
steps return explicit result values.  Tracing/telemetry calls
(`tracing::info!`, `tracing::warn!`, `tracing::error!`) are not side
effects on the filesystem or on processes and are not modelled.
-/

namespace RattlerBuild

/-! ## String helpers

`Rust str::replace`: replaces every non-overlapping occurrence of the
pattern, scanning left to right.  For an empty pattern Rust matches at
every character boundary (including both ends), so
`"abc".replace("", "-") = "-a-b-c-"`. -/

/-- Scan for a non-empty pattern `f`, replacing each leftmost occurrence
with `t` and continuing after it (the non-empty case of `str::replace`).
The fuel argument — initialised to the subject's length and decremented
once per emitted segment — only forces structural termination; it never
runs out, because every step removes at least one character from the
subject. -/
def replaceAllAux (f t : List Char) : Nat → List Char → List Char
  | _, [] => []
  | 0, s => s
  | fuel + 1, c :: rest =>
    if f.isPrefixOf (c :: rest) then
      t ++ replaceAllAux f t fuel (rest.drop (f.length - 1))
    else
      c :: replaceAllAux f t fuel rest

/-- `Rust str::replace` on character lists: every non-overlapping
occurrence of `f` in `s` is replaced by `t`. -/
def replaceAll (f t s : List Char) : List Char :=
  match f with
  | [] => t ++ s.flatMap (fun c => c :: t)
  | _ :: _ => replaceAllAux f t s.length s

/-- `Rust str::replace` on strings. -/
def replaceStr (s f t : String) : String :=
  ⟨replaceAll f.data t.data s.data⟩

/-- The per-line redaction fold from `execute_with_replacements`
(mod.rs lines 135-137):
`replacements.iter().fold(line, |acc, (from, to)| acc.replace(from, to))`.
The `HashMap` iteration sequence is modelled as the list order. -/
def applyReplacements (repl : List (String × String)) (line : String) : String :=
  repl.foldl (fun acc p => replaceStr acc p.1 p.2) line

/-- Whether `pat` occurs as a contiguous substring of `s`. -/
def containsSeq (s pat : List Char) : Bool :=
  match s with
  | [] => pat.isEmpty
  | _ :: rest => pat.isPrefixOf s || containsSeq rest pat

/-- Substring containment on strings (observer used to state redaction
and remediation-message properties). -/
def containsStr (s pat : String) : Bool :=
  containsSeq s.data pat.data

/-! ## Path helpers

`std::path::Path::parent` on Unix paths: drop the last component;
`none` for the root or the empty path. -/

/-- Split a character list on `/` (keeping empty segments). -/
def splitSlash : List Char → List (List Char)
  | [] => [[]]
  | c :: rest =>
    let r := splitSlash rest
    if c = '/' then [] :: r
    else
      match r with
      | [] => [[c]]
      | h :: t => (c :: h) :: t

/-- Join path components with `/`. -/
def joinSlash : List (List Char) → List Char
  | [] => []
  | [x] => x
  | x :: xs => x ++ '/' :: joinSlash xs

/-- `Path::parent` for Unix-style paths: the path without its final
normal component; `none` when the path is empty or consists only of the
root.  (Paths containing `.` components are outside the scope of the
claims and are normalised away here.) -/
def pathParent (p : String) : Option String :=
  let cs := p.data
  let abs := cs.head? = some '/'
  let comps := (splitSlash cs).filter (fun c => ¬(c = [] ∨ c = ['.']))
  match comps with
  | [] => none
  | [_] => some (if abs then "/" else "")
  | _ :: _ :: _ =>
    some ⟨(if abs then ['/'] else []) ++ joinSlash comps.dropLast⟩

/-! ## Docker mount resolution (docker.rs lines 135-156)

`collect_mount_paths` inserts, for the cwd and every additional mount,
the best-effort canonicalised path and its parent directory into a
`std::collections::HashSet<PathBuf>` and returns
`unique_paths.into_iter().collect()`.  A `HashSet` is seeded by a fresh
`RandomState` per instance, so its iteration order is arbitrary and
differs between instances; the order is modelled by the `hashOrder`
parameter, a permutation of the deduplicated contents corresponding to
one draw of the hasher state.  `Path::canonicalize` is a filesystem
call, modelled by the `canon` parameter (`none` = canonicalization
failed, e.g. the path does not exist; the code then uses the path as
given). -/

/-- Set insertion realised on an insertion-ordered duplicate-free list. -/
def insertUnique (l : List String) (x : String) : List String :=
  if x ∈ l then l else l ++ [x]

/-- One iteration of the loop in `collect_mount_paths` (docker.rs lines
141-153): insert the best-effort canonical path, then its parent when it
has one. -/
def mountStep (canon : String → Option String) (acc : List String)
    (path : String) : List String :=
  match pathParent ((canon path).getD path) with
  | some parent => insertUnique (insertUnique acc ((canon path).getD path)) parent
  | none => insertUnique acc ((canon path).getD path)

/-- The deduplicated contents of the `unique_paths` set built by the
loop in `collect_mount_paths`, in insertion order. -/
def collectMountSet (canon : String → Option String) (cwd : String)
    (additional : List String) : List String :=
  (cwd :: additional).foldl (mountStep canon) []

/-- `DockerRunner::collect_mount_paths`: the set contents emitted in the
hasher-determined iteration order. -/
def collect_mount_paths (hashOrder : List String → List String)
    (canon : String → Option String) (cwd : String)
    (additional : List String) : List String :=
  hashOrder (collectMountSet canon cwd additional)

/-! ## Docker argument construction (docker.rs lines 180-217) -/

/-- `DockerConfiguration` (docker.rs lines 50-57). -/
structure DockerConfiguration where
  image : String
  allow_network : Bool
deriving Repr, DecidableEq

/-- The argument vector pushed onto the `docker` command by
`DockerRunner::run_command` (docker.rs lines 180-212), given the
already-resolved mount path list. -/
def dockerBuildArgs (cfg : DockerConfiguration) (mountPaths : List String)
    (cwd : String) (args : List String) : List String :=
  let a := ["run", "--rm"]
  let a := if cfg.allow_network then a else a ++ ["--network=none"]
  let a := mountPaths.foldl (fun acc p => acc ++ ["-v", p ++ ":" ++ p]) a
  let a := a ++ ["-w", cwd]
  let a := a ++ [cfg.image]
  a ++ args

/-- Modelled from the spec: the container invocation shape asserted by
claim C1 — `run --rm --user <uid>:<gid> [--network=none]
(-v <path>:<path>[:ro])* -w <work_dir> <image> <command_args...>`, with
the user/group flag always included on POSIX and the `:ro` suffix when
the mount's access mode is ReadOnly.  Each mount is a path paired with
its read-only flag.  This definition follows the spec's words and is
compared against `dockerBuildArgs`, which follows the source. -/
def dockerArgsClaimC1 (cfg : DockerConfiguration) (uid gid : Nat)
    (mounts : List (String × Bool)) (cwd : String) (args : List String) :
    List String :=
  ["run", "--rm", "--user", toString uid ++ ":" ++ toString gid]
    ++ (if cfg.allow_network then [] else ["--network=none"])
    ++ mounts.flatMap
        (fun m => ["-v", m.1 ++ ":" ++ m.1 ++ (if m.2 then ":ro" else "")])
    ++ ["-w", cwd, cfg.image] ++ args

/-! ## Skip (recipe/parser/skip.rs)

`Skip(Vec<(String, Span)>, Option<bool>)`; the spans only feed error
messages and are dropped here. -/

/-- `Skip` (skip.rs line 13). -/
structure Skip where
  conditions : List String
  evalResult : Option Bool
deriving Repr, DecidableEq

/-- The `Ok(Skip(conditions, None))` produced by parsing
(`TryConvertNode<Skip>`, skip.rs line 51); a `Null` node yields the
empty condition list. -/
def Skip.parsedFromConditions (conds : List String) : Skip :=
  ⟨conds, none⟩

/-- `Skip::merge` (skip.rs lines 64-79). -/
def Skip.merge (s : Skip) (other : Skip) : Skip :=
  { conditions := s.conditions ++ other.conditions,
    evalResult :=
      match s.evalResult, other.evalResult with
      | some true, _ => some true
      | _, some true => some true
      | some false, some false => some false
      | _, _ => none }

/-- The condition scan of `Skip::with_eval` (skip.rs lines 82-96):
true as soon as one condition renders truthy, false when none does,
error on the first rendering failure. -/
def evalConditions (jinja : String → Except String Bool) :
    List String → Except String Bool
  | [] => .ok false
  | c :: rest =>
    match jinja c with
    | .ok true => .ok true
    | .ok false => evalConditions jinja rest
    | .error e => .error e

/-- `Skip::with_eval` (skip.rs lines 81-98), with the Jinja evaluator
modelled as a function from a condition to `Except` of truthiness. -/
def Skip.with_eval (s : Skip) (jinja : String → Except String Bool) :
    Except String Skip :=
  (evalConditions jinja s.conditions).map (fun b => ⟨s.conditions, some b⟩)

/-- `Skip::eval` (skip.rs lines 100-102): `self.1.unwrap_or(true)`. -/
def Skip.eval (s : Skip) : Bool :=
  s.evalResult.getD true

/-! ## The streaming execution engine (mod.rs lines 97-183)

`execute_with_replacements` opens the build log, spawns the command,
drains stdout/stderr line by line through a `tokio::select!`
multiplexer, applies the redaction fold to each line, appends the
filtered line plus a newline to the per-stream buffer and the log file,
waits for the child, flushes the log and returns the output.  The same
loop is inlined verbatim in host.rs, sandbox.rs and docker.rs.

The completed reads of the multiplexer are modelled as an event trace:
each event is the next `next_line()` completion in completion order
(`Ok(Some(line))`, `Ok(None)` = end of stream, or `Err`).  The OS is
modelled by an `EngineEnv`: whether the log open and the spawn succeed,
which log writes succeed (indexed by write count), whether the flush
succeeds, and the result of `child.wait()`. -/

/-- One completed read from the multiplexed drain
(`stdout_lines`/`stderr_lines.next_line()`). -/
inductive Ev where
  | line (isStderr : Bool) (text : String)
  | eof (isStderr : Bool)
  | err (isStderr : Bool)
deriving Repr, DecidableEq

/-- Filesystem and process side effects, in program order. -/
inductive Effect where
  | checkDockerVersion
  | openLogAppend
  | spawn (program : String) (args : List String)
  | read (e : Ev)
  | logWrite (data : String) (ok : Bool)
  | wait
  | flushLog (ok : Bool)
deriving Repr, DecidableEq

/-- State of the drain loop (mod.rs lines 122-124 plus the log file and
accumulated side effects). -/
structure LoopState where
  stdoutLog : String := ""
  stderrLog : String := ""
  outClosed : Bool := false
  errClosed : Bool := false
  logData : String := ""
  writeIdx : Nat := 0
  fx : List Effect := []
deriving Repr, DecidableEq

/-- How the drain loop ended: both streams closed, a read error broke it
early, or the event trace was exhausted without either (the real loop
would still be blocked waiting for a read in that case). -/
inductive LoopExit where
  | bothClosed
  | readErr
  | exhausted
deriving Repr, DecidableEq

/-- The `Ok(Some(line))` arm (mod.rs lines 134-156): apply the redaction
fold, append the filtered line and a newline to the per-stream buffer,
attempt the two log writes (each failure only warns). -/
def processLine (wok : Nat → Bool) (repl : List (String × String))
    (isStderr : Bool) (l : String) (s : LoopState) : LoopState :=
  let filtered := applyReplacements repl l
  let ok1 := wok s.writeIdx
  let ok2 := wok (s.writeIdx + 1)
  { s with
    stdoutLog := if isStderr then s.stdoutLog else s.stdoutLog ++ filtered ++ "\n",
    stderrLog := if isStderr then s.stderrLog ++ filtered ++ "\n" else s.stderrLog,
    logData := s.logData ++ (if ok1 then filtered else "")
                 ++ (if ok2 then "\n" else ""),
    writeIdx := s.writeIdx + 2,
    fx := s.fx ++ [Effect.logWrite filtered ok1, Effect.logWrite "\n" ok2] }

/-- The effect of one match arm of the loop body (mod.rs lines
133-164) on the loop state: a line is filtered and appended, an
end-of-stream marks its stream closed, a read error only warns (the
break itself lives in `runLoop`). -/
def applyEv (wok : Nat → Bool) (repl : List (String × String)) (e : Ev)
    (s : LoopState) : LoopState :=
  match e with
  | .line isStderr l =>
    processLine wok repl isStderr l
      { s with fx := s.fx ++ [Effect.read (Ev.line isStderr l)] }
  | .eof isStderr =>
    if isStderr then
      { s with errClosed := true, fx := s.fx ++ [Effect.read (Ev.eof isStderr)] }
    else
      { s with outClosed := true, fx := s.fx ++ [Effect.read (Ev.eof isStderr)] }
  | .err isStderr =>
    { s with fx := s.fx ++ [Effect.read (Ev.err isStderr)] }

/-- Whether an event is a read error (whose arm breaks the loop). -/
def Ev.isErr : Ev → Bool
  | .err _ => true
  | _ => false

/-- The drain loop (mod.rs lines 126-169): process completed reads in
completion order; `Ok(None)` marks the stream closed; `Err` warns and
breaks; after every other event the loop breaks when both streams are
closed.  Returns the final state, how the loop exited, and how many
events were consumed. -/
def runLoop (wok : Nat → Bool) (repl : List (String × String)) :
    List Ev → LoopState → LoopState × LoopExit × Nat
  | [], s => (s, .exhausted, 0)
  | e :: rest, s =>
    if e.isErr then (applyEv wok repl e s, .readErr, 1)
    else if (applyEv wok repl e s).outClosed && (applyEv wok repl e s).errClosed then
      (applyEv wok repl e s, .bothClosed, 1)
    else
      ((runLoop wok repl rest (applyEv wok repl e s)).1,
       (runLoop wok repl rest (applyEv wok repl e s)).2.1,
       (runLoop wok repl rest (applyEv wok repl e s)).2.2 + 1)

/-- The OS behaviour for one invocation. -/
structure EngineEnv where
  replacements : List (String × String)
  events : List Ev
  logOpenOk : Bool
  spawnOk : Bool
  writeOk : Nat → Bool
  flushOk : Bool
  waitResult : Option Int

/-- An OS call that can fail and whose error the source propagates
with `?`. -/
inductive OsOp where
  | openLog
  | spawnChild
  | waitChild
deriving Repr, DecidableEq

/-- `std::io::ErrorKind` values constructed explicitly in the source. -/
inductive ErrKind where
  | notFound
  | other
deriving Repr, DecidableEq

/-- Result of one runner invocation: an explicitly constructed
`io::Error`, a propagated OS error, a panic (out-of-bounds index), or
`Ok(std::process::Output)`. -/
inductive RunResult where
  | ioErr (kind : ErrKind) (msg : String)
  | osErr (op : OsOp)
  | panicked
  | ok (status : Int) (stdout : String) (stderr : String)
deriving Repr, DecidableEq

/-- Everything after a command is built: spawn, drain, wait, flush
(mod.rs lines 110-182; inlined identically in host.rs, sandbox.rs and
docker.rs).  `fx0` is the effect prefix accumulated before the spawn. -/
def spawnAndStream (program : String) (argv : List String)
    (env : EngineEnv) (fx0 : List Effect) : RunResult × List Effect :=
  if env.spawnOk then
    let t := runLoop env.writeOk env.replacements env.events {}
    match env.waitResult with
    | none => (.osErr .waitChild, fx0 ++ [.spawn program argv] ++ t.1.fx ++ [.wait])
    | some st =>
      (.ok st t.1.stdoutLog t.1.stderrLog,
       fx0 ++ [.spawn program argv] ++ t.1.fx ++ [.wait, .flushLog env.flushOk])
  else
    (.osErr .spawnChild, fx0 ++ [.spawn program argv])

/-- A built command (destination program plus arguments; the working
directory and the explicit `PWD` environment entry, where the source
sets them). -/
structure Cmd where
  program : String
  args : List String
  currentDir : Option String
  envPWD : Option String
deriving Repr, DecidableEq

/-- `execute_with_replacements` (mod.rs lines 97-183): open the log in
create/append mode, then spawn and stream. -/
def execute_with_replacements (command : Cmd) (env : EngineEnv) :
    RunResult × List Effect :=
  if env.logOpenOk then
    spawnAndStream command.program command.args env [.openLogAppend]
  else
    (.osErr .openLog, [.openLogAppend])

/-- The log file's contents contributed by this invocation: the data of
the successful appends, in order. -/
def logBytes (fx : List Effect) : String :=
  fx.foldl
    (fun acc e =>
      match e with
      | .logWrite d true => acc ++ d
      | _ => acc)
    ""

/-! ## Host runner (host.rs lines 17-43, pre-spawn part) -/

/-- The command built by `HostRunner::run_command` (host.rs lines
31-41): `Command::new(args[0]).current_dir(cwd).env("PWD", cwd)
.args(&args[1..])`.  The unguarded `args[0]` index panics on an empty
slice; the panic is modelled as `none`. -/
def hostBuildCommand (args : List String) (cwd : String) : Option Cmd :=
  match args.get? 0 with
  | none => none
  | some prog =>
    some { program := prog, args := args.drop 1,
           currentDir := some cwd, envPWD := some cwd }

/-! ## Sandbox runner (sandbox.rs) -/

/-- The error message constructed when `rattler-sandbox` is not on the
search path (sandbox.rs lines 50-53). -/
def sandboxMissingMsg : String :=
  "rattler-sandbox executable not found. Please install it with: pixi global install rattler-sandbox"

/-- The environment of one sandbox invocation: the `which` lookup
result, the rendered `config.with_cwd(cwd).to_args()` argument vector
(the `SandboxConfiguration` is outside this core and only its rendered
output matters here), and the OS behaviour. -/
structure SbxEnv where
  findSandbox : Option String
  renderedArgs : List String
  engine : EngineEnv

/-- `SandboxRunner::run_command` (sandbox.rs lines 30-148): open the
log, look up the executable (absence is a `NotFound` error with
remediation text, raised before the command is even assembled), build
`<exe> <rendered args> <args[0]> <args[1..]>` — the `args[0]` index
panics on an empty slice — then spawn and stream. -/
def sandboxRunCommand (env : SbxEnv) (args : List String) (cwd : String) :
    RunResult × List Effect :=
  if env.engine.logOpenOk then
    match env.findSandbox with
    | none => (.ioErr .notFound sandboxMissingMsg, [.openLogAppend])
    | some exe =>
      match args.get? 0 with
      | none => (.panicked, [.openLogAppend])
      | some a0 =>
        let _ := cwd
        spawnAndStream exe (env.renderedArgs ++ a0 :: args.drop 1)
          env.engine [.openLogAppend]
  else
    (.osErr .openLog, [.openLogAppend])

/-! ## Docker runner invocation (docker.rs lines 159-292) -/

/-- Result of `check_docker_available` (docker.rs lines 115-132). -/
inductive DockerProbe where
  | ok
  | versionFailed
  | notFound
deriving Repr, DecidableEq

/-- The host operating system.  The source of `DockerRunner` never
inspects the platform; this field exists so that platform-(in)dependence
can be stated, and is not read by any definition below. -/
inductive OsKind where
  | linux
  | macos
  | windows
deriving Repr, DecidableEq

/-- The environment of one docker invocation. -/
structure DockerEnv where
  os : OsKind
  probe : DockerProbe
  canon : String → Option String
  hashOrder : List String → List String
  engine : EngineEnv

/-- `DockerRunner::run_command` (docker.rs lines 161-292): probe docker
with a version query (`Err` from the probe propagates with `?`), open
the log, resolve the mount paths, build the argument vector, then spawn
and stream. -/
def dockerRunCommand (denv : DockerEnv) (cfg : DockerConfiguration)
    (additionalMounts : List String) (args : List String) (cwd : String) :
    RunResult × List Effect :=
  match denv.probe with
  | .versionFailed =>
    (.ioErr .other "Docker command failed", [.checkDockerVersion])
  | .notFound =>
    (.ioErr .notFound
       "Docker is not available. Please install Docker to use the docker runner.",
     [.checkDockerVersion])
  | .ok =>
    if denv.engine.logOpenOk then
      let mountPaths := collect_mount_paths denv.hashOrder denv.canon cwd additionalMounts
      let argv := dockerBuildArgs cfg mountPaths cwd args
      spawnAndStream "docker" argv denv.engine
        [.checkDockerVersion, .openLogAppend]
    else
      (.osErr .openLog, [.checkDockerVersion, .openLogAppend])

/-! ## Shared lemmas -/

theorem string_empty_append (s : String) : "" ++ s = s := by
  cases s
  rfl

theorem mounts_foldl_eq (mp : List String) :
    ∀ acc : List String,
      mp.foldl (fun acc p => acc ++ ["-v", p ++ ":" ++ p]) acc
        = acc ++ mp.flatMap (fun p => ["-v", p ++ ":" ++ p]) := by
  induction mp with
  | nil => intro acc; simp
  | cons p rest ih =>
    intro acc
    simp only [List.foldl_cons, List.flatMap_cons, ih]
    simp

/-- The closed form of the argument vector built by
`DockerRunner::run_command`. -/
theorem dockerBuildArgs_eq (cfg : DockerConfiguration)
    (mountPaths : List String) (cwd : String) (args : List String) :
    dockerBuildArgs cfg mountPaths cwd args
      = ["run", "--rm"]
          ++ (if cfg.allow_network then [] else ["--network=none"])
          ++ mountPaths.flatMap (fun p => ["-v", p ++ ":" ++ p])
          ++ ["-w", cwd, cfg.image] ++ args := by
  unfold dockerBuildArgs
  cases h : cfg.allow_network <;> simp [mounts_foldl_eq]

/-- A mount flag value `p:p` always contains a colon, so it is never the
network-isolation flag. -/
theorem mount_flag_ne_network (p : String) :
    p ++ ":" ++ p ≠ "--network=none" := by
  intro h
  have hc : ':' ∈ (p ++ ":" ++ p).data := by
    simp [String.data_append]
  rw [h] at hc
  simp at hc

theorem insertUnique_mem_self (l : List String) (x : String) :
    x ∈ insertUnique l x := by
  unfold insertUnique
  split
  · assumption
  · simp

theorem insertUnique_mem_mono (l : List String) (x y : String)
    (h : x ∈ l) : x ∈ insertUnique l y := by
  unfold insertUnique
  split
  · exact h
  · simp [h]

theorem mountStep_mem_mono (canon : String → Option String)
    (acc : List String) (path x : String) (h : x ∈ acc) :
    x ∈ mountStep canon acc path := by
  unfold mountStep
  split
  · exact insertUnique_mem_mono _ _ _ (insertUnique_mem_mono _ _ _ h)
  · exact insertUnique_mem_mono _ _ _ h

theorem mountStep_mem_canonical (canon : String → Option String)
    (acc : List String) (path : String) :
    (canon path).getD path ∈ mountStep canon acc path := by
  unfold mountStep
  split
  · exact insertUnique_mem_mono _ _ _ (insertUnique_mem_self _ _)
  · exact insertUnique_mem_self _ _

theorem mountStep_mem_parent (canon : String → Option String)
    (acc : List String) (path q : String)
    (h : pathParent ((canon path).getD path) = some q) :
    q ∈ mountStep canon acc path := by
  unfold mountStep
  split
  · next heq =>
    rw [h] at heq
    cases heq
    exact insertUnique_mem_self _ _
  · next heq => rw [h] at heq; cases heq

theorem mountFold_mem_mono (canon : String → Option String) :
    ∀ (paths : List String) (acc : List String) (x : String),
      x ∈ acc → x ∈ paths.foldl (mountStep canon) acc := by
  intro paths
  induction paths with
  | nil => intro acc x h; simpa using h
  | cons p rest ih =>
    intro acc x h
    simp only [List.foldl_cons]
    exact ih _ _ (mountStep_mem_mono canon acc p x h)

theorem mountFold_mem_canonical (canon : String → Option String) :
    ∀ (paths : List String) (acc : List String) (p : String),
      p ∈ paths →
      (canon p).getD p ∈ paths.foldl (mountStep canon) acc := by
  intro paths
  induction paths with
  | nil => intro acc p h; simp at h
  | cons a rest ih =>
    intro acc p h
    simp only [List.foldl_cons]
    rcases List.mem_cons.mp h with h1 | h1
    · subst h1
      exact mountFold_mem_mono canon rest _ _ (mountStep_mem_canonical canon acc p)
    · exact ih _ p h1

theorem mountFold_mem_parent (canon : String → Option String) :
    ∀ (paths : List String) (acc : List String) (p q : String),
      p ∈ paths → pathParent ((canon p).getD p) = some q →
      q ∈ paths.foldl (mountStep canon) acc := by
  intro paths
  induction paths with
  | nil => intro acc p q h; simp at h
  | cons a rest ih =>
    intro acc p q h hq
    simp only [List.foldl_cons]
    rcases List.mem_cons.mp h with h1 | h1
    · subst h1
      exact mountFold_mem_mono canon rest _ _ (mountStep_mem_parent canon acc p q hq)
    · exact ih _ p q h1 hq

/-! ### Drain-loop lemmas -/

/-- Agreement of two loop states on everything except the log file and
the accumulated effects: the stream captures and the closed flags. -/
def SameCore (s t : LoopState) : Prop :=
  s.stdoutLog = t.stdoutLog ∧ s.stderrLog = t.stderrLog
    ∧ s.outClosed = t.outClosed ∧ s.errClosed = t.errClosed

theorem sameCore_refl (s : LoopState) : SameCore s s :=
  ⟨rfl, rfl, rfl, rfl⟩

theorem applyEv_congr (w1 w2 : Nat → Bool) (repl : List (String × String))
    (e : Ev) (s t : LoopState) (h : SameCore s t) :
    SameCore (applyEv w1 repl e s) (applyEv w2 repl e t) := by
  obtain ⟨h1, h2, h3, h4⟩ := h
  cases e with
  | line isStderr l =>
    cases isStderr <;>
      simp_all [applyEv, processLine, SameCore]
  | eof isStderr =>
    cases isStderr <;> simp_all [applyEv, SameCore]
  | err isStderr =>
    simp_all [applyEv, SameCore]

theorem runLoop_congr (repl : List (String × String)) :
    ∀ (ev : List Ev) (w1 w2 : Nat → Bool) (s t : LoopState),
      SameCore s t →
      SameCore (runLoop w1 repl ev s).1 (runLoop w2 repl ev t).1
        ∧ (runLoop w1 repl ev s).2 = (runLoop w2 repl ev t).2 := by
  intro ev
  induction ev with
  | nil => intro w1 w2 s t h; simpa [runLoop] using h
  | cons e rest ih =>
    intro w1 w2 s t h
    have hc := applyEv_congr w1 w2 repl e s t h
    obtain ⟨c1, c2, c3, c4⟩ := hc
    by_cases he : e.isErr = true
    · simp only [runLoop, he, if_true]
      exact ⟨⟨c1, c2, c3, c4⟩, by trivial⟩
    · by_cases hb : ((applyEv w1 repl e s).outClosed && (applyEv w1 repl e s).errClosed) = true
      · have hb2 : ((applyEv w2 repl e t).outClosed && (applyEv w2 repl e t).errClosed) = true := by
          rw [← c3, ← c4]; exact hb
        simp only [runLoop, he, hb, hb2, if_true, Bool.false_eq_true, if_false]
        exact ⟨⟨c1, c2, c3, c4⟩, by trivial⟩
      · have hb2 : ¬((applyEv w2 repl e t).outClosed && (applyEv w2 repl e t).errClosed) = true := by
          rw [← c3, ← c4]; exact hb
        have hrec := ih w1 w2 (applyEv w1 repl e s) (applyEv w2 repl e t) ⟨c1, c2, c3, c4⟩
        simp only [runLoop, he, hb, hb2, if_false, Bool.false_eq_true]
        refine ⟨hrec.1, ?_⟩
        simp [Prod.ext_iff] at hrec ⊢
        exact ⟨hrec.2.1, hrec.2.2⟩

/-- When the loop broke because both streams closed, both closed flags
are set in the final state. -/
theorem runLoop_both_closed (wok : Nat → Bool) (repl : List (String × String)) :
    ∀ (ev : List Ev) (s : LoopState),
      (runLoop wok repl ev s).2.1 = LoopExit.bothClosed →
      (runLoop wok repl ev s).1.outClosed = true
        ∧ (runLoop wok repl ev s).1.errClosed = true := by
  intro ev
  induction ev with
  | nil => intro s h; simp [runLoop] at h
  | cons e rest ih =>
    intro s h
    by_cases he : e.isErr = true
    · simp [runLoop, he] at h
    · by_cases hb : ((applyEv wok repl e s).outClosed && (applyEv wok repl e s).errClosed) = true
      · simp only [runLoop, he, hb, if_true, Bool.false_eq_true, if_false]
        exact Bool.and_eq_true_iff.mp hb
      · simp only [runLoop, he, hb, if_false, Bool.false_eq_true] at h ⊢
        exact ih _ h

/-- Once the loop has broken (both streams closed, or a read error),
events past the break point are irrelevant: the run on the consumed
prefix followed by anything at all is the same run. -/
theorem runLoop_stop (wok : Nat → Bool) (repl : List (String × String)) :
    ∀ (ev : List Ev) (s : LoopState),
      (runLoop wok repl ev s).2.1 ≠ LoopExit.exhausted →
      ∀ tail,
        runLoop wok repl (ev.take (runLoop wok repl ev s).2.2 ++ tail) s
          = runLoop wok repl ev s := by
  intro ev
  induction ev with
  | nil => intro s h; simp [runLoop] at h
  | cons e rest ih =>
    intro s h tail
    by_cases he : e.isErr = true
    · simp [runLoop, he, List.take_succ_cons]
    · by_cases hb : ((applyEv wok repl e s).outClosed && (applyEv wok repl e s).errClosed) = true
      · simp [runLoop, he, hb, List.take_succ_cons]
      · have hx : (runLoop wok repl (e :: rest) s).2.1
            = (runLoop wok repl rest (applyEv wok repl e s)).2.1 := by
          simp [runLoop, he, hb]
        have hn : (runLoop wok repl (e :: rest) s).2.2
            = (runLoop wok repl rest (applyEv wok repl e s)).2.2 + 1 := by
          simp [runLoop, he, hb]
        rw [hx] at h
        have hrec := ih (applyEv wok repl e s) h tail
        rw [hn, List.take_succ_cons, List.cons_append]
        simp only [runLoop, he, hb, if_false, Bool.false_eq_true, hrec]

/-- The loop never breaks strictly before its break point: running it on
any proper prefix of the consumed events exhausts the prefix without
breaking. -/
theorem runLoop_min (wok : Nat → Bool) (repl : List (String × String)) :
    ∀ (ev : List Ev) (s : LoopState),
      (runLoop wok repl ev s).2.1 = LoopExit.bothClosed →
      ∀ m, m < (runLoop wok repl ev s).2.2 →
        (runLoop wok repl (ev.take m) s).2.1 = LoopExit.exhausted := by
  intro ev
  induction ev with
  | nil => intro s h; simp [runLoop] at h
  | cons e rest ih =>
    intro s h m hm
    by_cases he : e.isErr = true
    · simp [runLoop, he] at h
    · by_cases hb : ((applyEv wok repl e s).outClosed && (applyEv wok repl e s).errClosed) = true
      · have hm0 : m = 0 := by
          simp only [runLoop, he, hb, if_true, Bool.false_eq_true, if_false] at hm
          omega
        subst hm0
        simp [runLoop]
      · simp only [runLoop, he, hb, if_false, Bool.false_eq_true] at h hm
        cases m with
        | zero => simp [runLoop]
        | succ k =>
          have hk : k < (runLoop wok repl rest (applyEv wok repl e s)).2.2 := by omega
          simp only [List.take_succ_cons]
          simp only [runLoop, he, hb, if_false, Bool.false_eq_true]
          exact ih _ h k hk

/-- The loop body never performs the process wait. -/
theorem runLoop_no_wait (wok : Nat → Bool) (repl : List (String × String)) :
    ∀ (ev : List Ev) (s : LoopState),
      Effect.wait ∈ (runLoop wok repl ev s).1.fx → Effect.wait ∈ s.fx := by
  intro ev
  induction ev with
  | nil => intro s h; simpa [runLoop] using h
  | cons e rest ih =>
    intro s h
    have happly : ∀ u : LoopState, Effect.wait ∈ (applyEv wok repl e u).fx →
        Effect.wait ∈ u.fx := by
      intro u hu
      cases e with
      | line isStderr l => simpa [applyEv, processLine] using hu
      | eof isStderr => cases isStderr <;> simpa [applyEv] using hu
      | err isStderr => simpa [applyEv] using hu
    by_cases he : e.isErr = true
    · simp only [runLoop, he, if_true] at h
      exact happly s h
    · by_cases hb : ((applyEv wok repl e s).outClosed && (applyEv wok repl e s).errClosed) = true
      · simp only [runLoop, he, hb, if_true, Bool.false_eq_true, if_false] at h
        exact happly s h
      · simp only [runLoop, he, hb, if_false, Bool.false_eq_true] at h
        exact happly s (ih _ h)

/-- The mount flags never contribute the network-isolation literal:
`-v` and `p:p` (which always contains a colon) are never
`--network=none`. -/
theorem network_not_in_mount_flags (mountPaths : List String) :
    "--network=none" ∉ mountPaths.flatMap (fun p => ["-v", p ++ ":" ++ p]) := by
  intro h
  rw [List.mem_flatMap] at h
  obtain ⟨p, _, hmem⟩ := h
  rcases List.mem_cons.mp hmem with h1 | h1
  · exact (by decide : ("--network=none" : String) ≠ "-v") h1
  · rcases List.mem_cons.mp h1 with h2 | h2
    · exact mount_flag_ne_network p h2.symm
    · simp at h2

/-! ## Claim theorems -/

/-- Canonicalization that fails on every path (no path exists on disk,
or the filesystem is unreadable). -/
def canonNone : String → Option String := fun _ => none

/-- A docker environment in which every OS interaction succeeds, the
child exits 0 after the given reads, and no redactions are configured. -/
def allOkEngine (events : List Ev) : EngineEnv :=
  { replacements := [], events := events, logOpenOk := true, spawnOk := true,
    writeOk := fun _ => true, flushOk := true, waitResult := some 0 }

/-- C1 (amended): on a POSIX host the docker runner's argument vector is
exactly `run --rm [--network=none] (-v p:p)* -w cwd image args` — the
network flag unless `allow_network`, one `-v p:p` flag per resolved
mount path mounting the same path inside and outside, `-w`, the image,
then the command args verbatim.  Unlike the claim, no `--user` flag is
ever emitted and no `:ro` suffix is ever appended (the runner's
additional mounts carry no access mode). -/
theorem docker_invocation_shape (cfg : DockerConfiguration)
    (mountPaths : List String) (cwd : String) (args : List String) :
    dockerBuildArgs cfg mountPaths cwd args
      = ["run", "--rm"]
          ++ (if cfg.allow_network then [] else ["--network=none"])
          ++ mountPaths.flatMap (fun p => ["-v", p ++ ":" ++ p])
          ++ ["-w", cwd, cfg.image] ++ args :=
  dockerBuildArgs_eq cfg mountPaths cwd args

/-- C1 counterexample: at a concrete POSIX invocation (image
`ubuntu:22.04`, network isolated, one resolved read-write mount `/w`,
uid/gid 1000), the vector the source builds differs from the vector the
claim describes, and in particular never contains a `--user` flag. -/
theorem docker_invocation_claim_counterexample :
    dockerBuildArgs ⟨"ubuntu:22.04", false⟩ ["/w"] "/w" ["bash"]
        ≠ dockerArgsClaimC1 ⟨"ubuntu:22.04", false⟩ 1000 1000 [("/w", false)] "/w" ["bash"]
      ∧ "--user" ∉ dockerBuildArgs ⟨"ubuntu:22.04", false⟩ ["/w"] "/w" ["bash"] := by
  decide

/-- C3 (amended): with `allow_network = false` the built vector always
contains `--network=none`; with `allow_network = true` the network step
contributes nothing, so the literal occurs in the vector exactly when it
already occurs among the work dir, the image name, or the command args
(the fixed flags and the `p:p` mount values, which always contain a
colon, can never equal it). -/
theorem network_flag_amended (cfg : DockerConfiguration)
    (mountPaths : List String) (cwd : String) (args : List String) :
    (cfg.allow_network = false →
      "--network=none" ∈ dockerBuildArgs cfg mountPaths cwd args)
    ∧ (cfg.allow_network = true →
      ("--network=none" ∈ dockerBuildArgs cfg mountPaths cwd args ↔
        "--network=none" ∈ cwd :: cfg.image :: args)) := by
  constructor
  · intro h
    simp [dockerBuildArgs_eq, h]
  · intro h
    rw [dockerBuildArgs_eq, h]
    have hmf := network_not_in_mount_flags mountPaths
    simp only [if_true, List.append_nil, List.mem_append, List.mem_cons,
      List.not_mem_nil, or_false]
    constructor
    · rintro ((((hr | hrm) | hf) | (hw | hcwd | himg)) | hargs)
      · exact absurd hr (by decide)
      · exact absurd hrm (by decide)
      · exact absurd hf hmf
      · exact absurd hw (by decide)
      · exact Or.inl hcwd
      · exact Or.inr (Or.inl himg)
      · exact Or.inr (Or.inr hargs)
    · rintro (hcwd | himg | hargs)
      · exact Or.inl (Or.inr (Or.inr (Or.inl hcwd)))
      · exact Or.inl (Or.inr (Or.inr (Or.inr himg)))
      · exact Or.inr hargs

/-- C1 witness: the amended shape evaluated at a concrete invocation. -/
theorem docker_invocation_shape_witness :
    dockerBuildArgs ⟨"ubuntu:22.04", false⟩ ["/w"] "/w" ["bash"]
      = ["run", "--rm", "--network=none", "-v", "/w:/w", "-w", "/w",
         "ubuntu:22.04", "bash"] :=
  (docker_invocation_shape ⟨"ubuntu:22.04", false⟩ ["/w"] "/w" ["bash"]).trans
    (by decide)

/-- C3 counterexample: with `allow_network = true` the built vector can
still contain the network-isolation literal, because the image name is
passed through verbatim — the claim's "never" fails at the configuration
whose image is the literal itself. -/
theorem network_flag_counterexample :
    (⟨"--network=none", true⟩ : DockerConfiguration).allow_network = true
      ∧ "--network=none" ∈ dockerBuildArgs ⟨"--network=none", true⟩ ["/w"] "/w" ["sh"] := by
  decide

/-- C3 witness: both amended directions at concrete configurations. -/
theorem network_flag_amended_witness :
    "--network=none" ∈ dockerBuildArgs ⟨"ubuntu:22.04", false⟩ ["/w"] "/w" ["sh"]
      ∧ ("--network=none" ∈ dockerBuildArgs ⟨"ubuntu:22.04", true⟩ ["/w"] "/w" ["sh"] ↔
          "--network=none" ∈ "/w" :: "ubuntu:22.04" :: ["sh"]) :=
  ⟨(network_flag_amended ⟨"ubuntu:22.04", false⟩ ["/w"] "/w" ["sh"]).1 rfl,
   (network_flag_amended ⟨"ubuntu:22.04", true⟩ ["/w"] "/w" ["sh"]).2 rfl⟩

/-- C2 (amended): mount resolution is deterministic *as a set*: for any
two draws of the hasher order (permutations of the deduplicated
contents) the outputs are permutations of each other, every requested
path's best-effort canonical form is in the result, and so is its parent
directory — also when the path does not exist on disk (canonicalization
fails and the path is used as given).  The claim's stronger demand —
identical output *lists in identical order* across runs, and hence
identical built argument vectors — fails, because the source returns the
iteration order of a freshly and randomly seeded `HashSet`. -/
theorem collect_mount_paths_amended (σ τ : List String → List String)
    (hσ : ∀ l, (σ l).Perm l) (hτ : ∀ l, (τ l).Perm l)
    (canon : String → Option String) (cwd : String) (additional : List String) :
    (collect_mount_paths σ canon cwd additional).Perm
        (collect_mount_paths τ canon cwd additional)
    ∧ (∀ p, p ∈ cwd :: additional →
        (canon p).getD p ∈ collect_mount_paths σ canon cwd additional)
    ∧ (∀ p q, p ∈ cwd :: additional →
        pathParent ((canon p).getD p) = some q →
        q ∈ collect_mount_paths σ canon cwd additional) := by
  refine ⟨(hσ _).trans (hτ _).symm, ?_, ?_⟩
  · intro p hp
    exact ((hσ _).mem_iff).mpr (mountFold_mem_canonical canon _ [] p hp)
  · intro p q hp hq
    exact ((hσ _).mem_iff).mpr (mountFold_mem_parent canon _ [] p q hp hq)

/-- C2 counterexample: two draws of the hasher order — both
permutations of the same resolved contents — give different output
lists at `cwd = /work`, `additional = [/opt/data]` (no path existing on
disk), and the two docker argument vectors built from the very same
configuration then differ as well. -/
theorem collect_mount_paths_order_counterexample :
    collect_mount_paths id canonNone "/work" ["/opt/data"]
        = ["/work", "/", "/opt/data", "/opt"]
      ∧ collect_mount_paths List.reverse canonNone "/work" ["/opt/data"]
          = ["/opt", "/opt/data", "/", "/work"]
      ∧ collect_mount_paths id canonNone "/work" ["/opt/data"]
          ≠ collect_mount_paths List.reverse canonNone "/work" ["/opt/data"]
      ∧ dockerBuildArgs ⟨"ubuntu:22.04", false⟩
            (collect_mount_paths id canonNone "/work" ["/opt/data"]) "/work" ["sh"]
          ≠ dockerBuildArgs ⟨"ubuntu:22.04", false⟩
            (collect_mount_paths List.reverse canonNone "/work" ["/opt/data"]) "/work" ["sh"] := by
  decide

/-- C2 witness: for a path that does not exist on disk the parent is
nevertheless in the resolved list, and two hasher draws agree up to
permutation. -/
theorem collect_mount_paths_amended_witness :
    (collect_mount_paths id canonNone "/nonexistent/dir" []).Perm
        (collect_mount_paths List.reverse canonNone "/nonexistent/dir" [])
      ∧ "/nonexistent" ∈ collect_mount_paths id canonNone "/nonexistent/dir" [] := by
  have h := collect_mount_paths_amended id List.reverse
    (fun l => List.Perm.refl l) (fun l => List.reverse_perm l)
    canonNone "/nonexistent/dir" []
  exact ⟨h.1, h.2.2 "/nonexistent/dir" "/nonexistent"
    (List.mem_cons_self _ _) (by decide)⟩

/-- C9: the host and sandbox runners index `command_args` at position 0
without a guard.  For every non-empty `command_args` the host runner
executes `args[0]` with `args[1..]` (working directory and `PWD` set to
the cwd), and the sandbox runner appends `args[0]`, `args[1..]` after
the rendered sandbox arguments; for empty `command_args` both panic
(modelled as `none` / `.panicked`) instead of returning an error. -/
theorem command_args_head_unguarded :
    (∀ (a : String) (rest : List String) (cwd : String),
      hostBuildCommand (a :: rest) cwd
        = some ⟨a, rest, some cwd, some cwd⟩)
    ∧ (∀ cwd : String, hostBuildCommand [] cwd = none)
    ∧ (∀ (env : SbxEnv) (exe a : String) (rest : List String) (cwd : String),
        env.findSandbox = some exe → env.engine.logOpenOk = true →
        sandboxRunCommand env (a :: rest) cwd
          = spawnAndStream exe (env.renderedArgs ++ a :: rest) env.engine
              [Effect.openLogAppend])
    ∧ (∀ (env : SbxEnv) (exe cwd : String),
        env.findSandbox = some exe → env.engine.logOpenOk = true →
        (sandboxRunCommand env [] cwd).1 = RunResult.panicked) := by
  refine ⟨fun a rest cwd => rfl, fun cwd => rfl, ?_, ?_⟩
  · intro env exe a rest cwd hfind hlog
    simp [sandboxRunCommand, hfind, hlog]
  · intro env exe cwd hfind hlog
    simp [sandboxRunCommand, hfind, hlog]

/-- A sandbox environment whose executable lookup succeeds and whose OS
interactions all succeed. -/
def sbxEnvFound : SbxEnv :=
  { findSandbox := some "/usr/bin/rattler-sandbox",
    renderedArgs := ["--fs-write", "/w"],
    engine := allOkEngine [Ev.eof false, Ev.eof true] }

/-- C9 witness: concrete host and sandbox invocations. -/
theorem command_args_head_unguarded_witness :
    hostBuildCommand ["echo", "hello"] "/w"
        = some ⟨"echo", ["hello"], some "/w", some "/w"⟩
      ∧ hostBuildCommand [] "/w" = none
      ∧ (sandboxRunCommand sbxEnvFound [] "/w").1 = RunResult.panicked := by
  have h := command_args_head_unguarded
  exact ⟨h.1 "echo" ["hello"] "/w", h.2.1 "/w",
    h.2.2.2 sbxEnvFound "/usr/bin/rattler-sandbox" "/w" rfl rfl⟩

/-- C10: whenever a `Skip`'s cached evaluation result is absent
(`None`) its `eval()` is `true` — the step is treated as skipped by
default until `with_eval` has run.  This covers a freshly parsed `Skip`
with an empty condition list, and any merge in which one side was
unevaluated and neither side was evaluated to true. -/
theorem skip_eval_default_true :
    (∀ s : Skip, s.evalResult = none → s.eval = true)
    ∧ (Skip.parsedFromConditions []).eval = true
    ∧ (∀ s o : Skip,
        (s.evalResult = none ∨ o.evalResult = none) →
        s.evalResult ≠ some true → o.evalResult ≠ some true →
        (s.merge o).eval = true) := by
  refine ⟨?_, rfl, ?_⟩
  · intro s h
    simp [Skip.eval, h]
  · intro s o hnone hs ho
    cases hs1 : s.evalResult with
    | none =>
      cases ho1 : o.evalResult with
      | none => simp [Skip.merge, Skip.eval, hs1, ho1]
      | some b =>
        cases b with
        | false => simp [Skip.merge, Skip.eval, hs1, ho1]
        | true => rw [ho1] at ho; exact absurd rfl ho
    | some b =>
      cases b with
      | true => rw [hs1] at hs; exact absurd rfl hs
      | false =>
        cases ho1 : o.evalResult with
        | none => simp [Skip.merge, Skip.eval, hs1, ho1]
        | some b2 =>
          cases b2 with
          | true => rw [ho1] at ho; exact absurd rfl ho
          | false =>
            rw [hs1, ho1] at hnone
            rcases hnone with h1 | h1 <;> exact absurd h1 (by simp)

/-- C10 witness: an unevaluated `Skip` and an unevaluated-merged-with-
evaluated-false `Skip` both evaluate to true. -/
theorem skip_eval_default_true_witness :
    (Skip.mk ["linux"] none).eval = true
      ∧ ((Skip.mk ["osx"] none).merge (Skip.mk ["win"] (some false))).eval = true := by
  have h := skip_eval_default_true
  exact ⟨h.1 ⟨["linux"], none⟩ rfl,
    h.2.2 ⟨["osx"], none⟩ ⟨["win"], some false⟩ (Or.inl rfl) (by simp) (by simp)⟩

/-- A representative built command (its fields only feed the spawn
effect and are irrelevant to the streaming engine). -/
def cmd0 : Cmd :=
  { program := "/bin/bash", args := ["build.sh"],
    currentDir := some "/w", envPWD := some "/w" }

/-- The engine environment of an execution whose child prints a single
stdout line and exits 0, with all OS interactions succeeding. -/
def lineEnv (repl : List (String × String)) (l : String) : EngineEnv :=
  { replacements := repl,
    events := [Ev.line false l, Ev.eof false, Ev.eof true],
    logOpenOk := true, spawnOk := true, writeOk := fun _ => true,
    flushOk := true, waitResult := some 0 }

/-- C4: each output line is filtered by folding every configured
replacement, in the mapping's iteration order, each replacing every
occurrence (the captured line is always `applyReplacements repl l`); in
particular with mapping `{"secret123" -> "***"}` and the child emitting
`token=secret123`, the captured stdout and the log both contain
`token=***` and never the literal `secret123`. -/
theorem redaction_applied :
    (∀ (repl : List (String × String)) (l : String),
      (execute_with_replacements cmd0 (lineEnv repl l)).1
        = RunResult.ok 0 (applyReplacements repl l ++ "\n") "")
    ∧ (execute_with_replacements cmd0
          (lineEnv [("secret123", "***")] "token=secret123")).1
        = RunResult.ok 0 "token=***\n" ""
    ∧ logBytes (execute_with_replacements cmd0
          (lineEnv [("secret123", "***")] "token=secret123")).2
        = "token=***\n"
    ∧ containsStr "token=***\n" "secret123" = false
    ∧ containsStr (logBytes (execute_with_replacements cmd0
          (lineEnv [("secret123", "***")] "token=secret123")).2) "secret123"
        = false := by
  refine ⟨?_, by decide, by decide, by decide, by decide⟩
  intro repl l
  simp [execute_with_replacements, lineEnv, spawnAndStream, runLoop, applyEv,
    processLine, Ev.isErr, string_empty_append]

/-- C4 witness: the general filtered-line conjunct applied at a
concrete mapping and line. -/
theorem redaction_applied_witness :
    (execute_with_replacements cmd0 (lineEnv [("p", "q")] "xpx")).1
      = RunResult.ok 0 (applyReplacements [("p", "q")] "xpx" ++ "\n") "" :=
  redaction_applied.1 [("p", "q")] "xpx"

/-- C5: when `rattler-sandbox` is absent from the search path, the
sandbox invocation fails with a NotFound error whose message names the
install method, and before any child is spawned — the only filesystem
side effect is the log file's own open-for-append. -/
theorem sandbox_tool_missing (env : SbxEnv) (args : List String) (cwd : String)
    (hlog : env.engine.logOpenOk = true) (hfind : env.findSandbox = none) :
    (sandboxRunCommand env args cwd).1
        = RunResult.ioErr ErrKind.notFound sandboxMissingMsg
      ∧ containsStr sandboxMissingMsg "pixi global install rattler-sandbox" = true
      ∧ (sandboxRunCommand env args cwd).2 = [Effect.openLogAppend] := by
  refine ⟨?_, by decide, ?_⟩ <;> simp [sandboxRunCommand, hlog, hfind]

/-- A sandbox environment in which the executable lookup fails. -/
def sbxEnvMissing : SbxEnv :=
  { findSandbox := none, renderedArgs := [], engine := allOkEngine [] }

/-- C5 witness: the concrete missing-tool invocation. -/
theorem sandbox_tool_missing_witness :
    (sandboxRunCommand sbxEnvMissing ["bash", "build.sh"] "/w").1
        = RunResult.ioErr ErrKind.notFound sandboxMissingMsg
      ∧ (sandboxRunCommand sbxEnvMissing ["bash", "build.sh"] "/w").2
        = [Effect.openLogAppend] := by
  have h := sandbox_tool_missing sbxEnvMissing ["bash", "build.sh"] "/w" rfl rfl
  exact ⟨h.1, h.2.2⟩

/-- C6: after the spawn, I/O errors never turn a successful child exit
into a failure: the invocation returns Ok with the child's status and
the accumulated per-stream output for *every* pattern of log-write and
log-flush failures, and a stream read error terminates the drain loop
early — events past the stop point are never processed — instead of
propagating as an error result. -/
theorem post_spawn_io_errors_nonfatal (cmd : Cmd) (env : EngineEnv) (st : Int)
    (hlog : env.logOpenOk = true) (hspawn : env.spawnOk = true)
    (hwait : env.waitResult = some st)
    (hterm : (runLoop env.writeOk env.replacements env.events {}).2.1
      ≠ LoopExit.exhausted) :
    (∀ (w : Nat → Bool) (fo : Bool),
      (execute_with_replacements cmd { env with writeOk := w, flushOk := fo }).1
        = RunResult.ok st
            (runLoop env.writeOk env.replacements env.events {}).1.stdoutLog
            (runLoop env.writeOk env.replacements env.events {}).1.stderrLog)
    ∧ ((runLoop env.writeOk env.replacements env.events {}).2.1 = LoopExit.readErr →
        ∀ tail,
          runLoop env.writeOk env.replacements
              (env.events.take
                (runLoop env.writeOk env.replacements env.events {}).2.2 ++ tail) {}
            = runLoop env.writeOk env.replacements env.events {}) := by
  constructor
  · intro w fo
    have hcong := runLoop_congr env.replacements env.events w env.writeOk {} {}
      (sameCore_refl {})
    obtain ⟨⟨hc1, hc2, _, _⟩, _⟩ := hcong
    simp [execute_with_replacements, spawnAndStream, hlog, hspawn, hwait, hc1, hc2]
  · intro hre tail
    exact runLoop_stop env.writeOk env.replacements env.events {} (by simp [hre]) tail

/-- An execution whose stderr read fails mid-stream and whose every log
write and the final flush fail. -/
def env6 : EngineEnv :=
  { replacements := [],
    events := [Ev.line false "a", Ev.err true, Ev.line false "zzz"],
    logOpenOk := true, spawnOk := true, writeOk := fun _ => false,
    flushOk := false, waitResult := some 7 }

/-- C6 witness: despite failing log writes, a failing flush and a read
error, the invocation returns Ok 7 with the partial output drained so
far, and the event after the read error is never processed. -/
theorem post_spawn_io_errors_nonfatal_witness :
    (execute_with_replacements cmd0 env6).1 = RunResult.ok 7 "a\n" ""
      ∧ runLoop env6.writeOk env6.replacements
            (env6.events.take (runLoop env6.writeOk env6.replacements env6.events {}).2.2
              ++ [Ev.line false "more"]) {}
          = runLoop env6.writeOk env6.replacements env6.events {} := by
  have h := post_spawn_io_errors_nonfatal cmd0 env6 7 rfl rfl rfl (by decide)
  refine ⟨?_, h.2 (by decide) [Ev.line false "more"]⟩
  have h1 := h.1 env6.writeOk env6.flushOk
  rw [show { env6 with writeOk := env6.writeOk, flushOk := env6.flushOk } = env6
    from rfl] at h1
  rw [h1]
  decide

/-- C7: when both streams eventually signal end-of-stream, the
multiplexed drain loop terminates exactly when the second stream closes
(it never stops earlier, and events after that point are irrelevant),
and the wait for the child's exit is performed only after the loop has
terminated — it appears in the effect order after every read, and never
inside the loop. -/
theorem drain_loop_termination (cmd : Cmd) (env : EngineEnv) (st : Int)
    (hlog : env.logOpenOk = true) (hspawn : env.spawnOk = true)
    (hwait : env.waitResult = some st)
    (hboth : (runLoop env.writeOk env.replacements env.events {}).2.1
      = LoopExit.bothClosed) :
    ((runLoop env.writeOk env.replacements env.events {}).1.outClosed = true
      ∧ (runLoop env.writeOk env.replacements env.events {}).1.errClosed = true)
    ∧ (∀ tail,
        runLoop env.writeOk env.replacements
            (env.events.take
              (runLoop env.writeOk env.replacements env.events {}).2.2 ++ tail) {}
          = runLoop env.writeOk env.replacements env.events {})
    ∧ (∀ m, m < (runLoop env.writeOk env.replacements env.events {}).2.2 →
        (runLoop env.writeOk env.replacements (env.events.take m) {}).2.1
          = LoopExit.exhausted)
    ∧ (execute_with_replacements cmd env).2
        = [Effect.openLogAppend, Effect.spawn cmd.program cmd.args]
            ++ (runLoop env.writeOk env.replacements env.events {}).1.fx
            ++ [Effect.wait, Effect.flushLog env.flushOk]
    ∧ Effect.wait ∉ (runLoop env.writeOk env.replacements env.events {}).1.fx := by
  refine ⟨runLoop_both_closed _ _ _ _ hboth,
    fun tail => runLoop_stop _ _ _ _ (by simp [hboth]) tail,
    runLoop_min _ _ _ _ hboth, ?_, fun hw => ?_⟩
  · simp [execute_with_replacements, hlog, spawnAndStream, hspawn, hwait]
  · have hempty := runLoop_no_wait env.writeOk env.replacements env.events {} hw
    simp at hempty

/-- An execution whose stdout closes well before stderr. -/
def env7 : EngineEnv :=
  { replacements := [],
    events := [Ev.eof false, Ev.line true "x", Ev.eof true],
    logOpenOk := true, spawnOk := true, writeOk := fun _ => true,
    flushOk := true, waitResult := some 0 }

/-- C7 witness: with stdout ending first, the loop stops exactly at
stderr's end-of-stream, later events are ignored, proper prefixes do not
stop it, and the wait effect is not part of the loop. -/
theorem drain_loop_termination_witness :
    ((runLoop env7.writeOk env7.replacements env7.events {}).1.outClosed = true
      ∧ (runLoop env7.writeOk env7.replacements env7.events {}).1.errClosed = true)
    ∧ runLoop env7.writeOk env7.replacements
          (env7.events.take (runLoop env7.writeOk env7.replacements env7.events {}).2.2
            ++ [Ev.line false "late"]) {}
        = runLoop env7.writeOk env7.replacements env7.events {}
    ∧ (runLoop env7.writeOk env7.replacements (env7.events.take 1) {}).2.1
        = LoopExit.exhausted
    ∧ Effect.wait ∉ (runLoop env7.writeOk env7.replacements env7.events {}).1.fx := by
  have h := drain_loop_termination cmd0 env7 0 rfl rfl rfl (by decide)
  exact ⟨h.1, h.2.1 [Ev.line false "late"], h.2.2.1 1 (by decide), h.2.2.2.2⟩

/-- A docker environment on a host that cannot run Linux containers
natively, with docker's version probe nevertheless succeeding and the
child exiting 0. -/
def denvWin : DockerEnv :=
  { os := OsKind.windows, probe := DockerProbe.ok, canon := canonNone,
    hashOrder := id, engine := allOkEngine [Ev.eof false, Ev.eof true] }

/-- C8 counterexample: invoked on such a host, the docker runner does
not refuse at all — it builds the command and spawns it, returning the
child's result; no UnsupportedPlatform-style refusal exists in the
source (its only pre-flight failure is the docker availability probe). -/
theorem platform_refusal_counterexample :
    (dockerRunCommand denvWin ⟨"ubuntu:22.04", false⟩ [] ["sh"] "/w").1
        = RunResult.ok 0 "" ""
      ∧ Effect.spawn "docker"
            ["run", "--rm", "--network=none", "-v", "/w:/w", "-v", "/:/",
             "-w", "/w", "ubuntu:22.04", "sh"]
          ∈ (dockerRunCommand denvWin ⟨"ubuntu:22.04", false⟩ [] ["sh"] "/w").2 := by
  decide

/-- C8 (amended): the docker runner performs no host-platform check:
its behaviour is identical on every host OS; its only pre-flight refusal
is the docker availability probe (a NotFound error with remediation
text, raised before the log is even opened), and whenever the probe,
the log open and the spawn succeed it proceeds to build the argument
vector and spawn the container. -/
theorem docker_preflight_amended :
    (∀ (denv : DockerEnv) (cfg : DockerConfiguration) (add args : List String)
        (cwd : String) (o1 o2 : OsKind),
      dockerRunCommand { denv with os := o1 } cfg add args cwd
        = dockerRunCommand { denv with os := o2 } cfg add args cwd)
    ∧ (∀ (denv : DockerEnv) (cfg : DockerConfiguration) (add args : List String)
        (cwd : String),
        denv.probe = DockerProbe.notFound →
        (dockerRunCommand denv cfg add args cwd).1
            = RunResult.ioErr ErrKind.notFound
                "Docker is not available. Please install Docker to use the docker runner."
          ∧ (dockerRunCommand denv cfg add args cwd).2 = [Effect.checkDockerVersion])
    ∧ (∀ (denv : DockerEnv) (cfg : DockerConfiguration) (add args : List String)
        (cwd : String),
        denv.probe = DockerProbe.ok → denv.engine.logOpenOk = true →
        denv.engine.spawnOk = true →
        Effect.spawn "docker"
            (dockerBuildArgs cfg
              (collect_mount_paths denv.hashOrder denv.canon cwd add) cwd args)
          ∈ (dockerRunCommand denv cfg add args cwd).2) := by
  refine ⟨?_, ?_, ?_⟩
  · intro denv cfg add args cwd o1 o2
    cases denv
    rfl
  · intro denv cfg add args cwd hp
    constructor <;> simp [dockerRunCommand, hp]
  · intro denv cfg add args cwd hp hlog hspawn
    cases hw : denv.engine.waitResult <;>
      simp [dockerRunCommand, hp, hlog, spawnAndStream, hspawn, hw]

/-- C8 witness: OS-independence, the notFound refusal, and the
proceed-to-spawn case at concrete environments. -/
theorem docker_preflight_amended_witness :
    dockerRunCommand { denvWin with os := OsKind.linux } ⟨"img", true⟩ [] ["sh"] "/w"
        = dockerRunCommand { denvWin with os := OsKind.macos } ⟨"img", true⟩ [] ["sh"] "/w"
      ∧ (dockerRunCommand { denvWin with probe := DockerProbe.notFound }
            ⟨"img", true⟩ [] ["sh"] "/w").1
          = RunResult.ioErr ErrKind.notFound
              "Docker is not available. Please install Docker to use the docker runner."
      ∧ Effect.spawn "docker"
            (dockerBuildArgs ⟨"img", true⟩
              (collect_mount_paths denvWin.hashOrder denvWin.canon "/w" []) "/w" ["sh"])
          ∈ (dockerRunCommand denvWin ⟨"img", true⟩ [] ["sh"] "/w").2 := by
  have h := docker_preflight_amended
  exact ⟨h.1 denvWin ⟨"img", true⟩ [] ["sh"] "/w" OsKind.linux OsKind.macos,
    (h.2.1 { denvWin with probe := DockerProbe.notFound } ⟨"img", true⟩ [] ["sh"] "/w"
      rfl).1,
    h.2.2 denvWin ⟨"img", true⟩ [] ["sh"] "/w" rfl rfl rfl⟩

end RattlerBuild
